import Mathlib

/-!
Verification of the GIF generation/staleness pipeline (`mise-tasks/gifs.py`).

The script renders VHS "tape" scripts into GIF artifacts and checks committed
GIFs for staleness against git history.  We embed its data model and
operations shallowly:

* tape files are lists of lines (`List String`), the filesystem is a function
  from tape path to its lines;
* the external recorder (`vhs`) is a function from scratch-directory id and
  tape path to an exit verdict (`Bool`, `true` = exit 0);
* `TemporaryDirectory` allocation/removal is explicit state passing over a
  `RenderState` holding the set of live scratch directories;
* the two read-only git queries are functions in a `GitRepo`; to observe how
  often and when they are issued, every query is threaded through a
  `GitState` carrying a logical clock and a query trace, and the HEAD value
  may change over time (`headSeq : Nat → String`) to model a repository that
  advances mid-run;
* the nondeterministic completion order of the render threads is an explicit
  permutation parameter applied to the list of successful results (the shared
  `gifs` list is appended to in completion order); a Python thread that dies
  with an exception never appends and never propagates the exception to
  `join`, so failed jobs simply contribute nothing.
-/

namespace Gifs

/-- Lexicographic comparison of char lists by code point, the order Python's
`sorted` uses on strings. -/
def lexLe : List Char → List Char → Bool
  | [], _ => true
  | _ :: _, [] => false
  | a :: as, b :: bs =>
    if a.toNat = b.toNat then lexLe as bs
    else decide (a.toNat < b.toNat)

/-- Python string comparison `a <= b` (lexicographic by code point). -/
def strLe (a b : String) : Bool := lexLe a.data b.data

instance strLeDecidableRel : DecidableRel (fun a b : String => strLe a b = true) :=
  fun _ _ => inferInstance

/-- Python's `sorted` on a list of strings. -/
def pySorted (l : List String) : List String :=
  List.insertionSort (fun a b => strLe a b = true) l

/-- Python `s.startswith(p)` over the character data. -/
def strStartsWith (s p : String) : Bool := p.data.isPrefixOf s.data

/-- Python `s.endswith(p)` over the character data. -/
def strEndsWith (s p : String) : Bool := p.data.isSuffixOf s.data

/-- Concatenation of a list of strings. -/
def joinStrings : List String → String
  | [] => ""
  | s :: rest => s ++ joinStrings rest

/-- Constant `TAPE_DIR` from the script. -/
def TAPE_DIR : String := "tapes/"

/-- Constant `GIF_MD_FILE` from the script. -/
def GIF_MD_FILE : String := "gifs.md"

/-- Embedding of `os.path.join(a, b)` for POSIX paths: an absolute second
component replaces the first; otherwise a separator is inserted unless the
first component is empty or already ends with one. -/
def os_path_join (a b : String) : String :=
  if strStartsWith b "/" then b
  else if a == "" || strEndsWith a "/" then a ++ b
  else a ++ "/" ++ b

/-- Source `get_tape_path`: `os.path.join(TAPE_DIR, f"{tape_name}.tape")`.
It is a pure path construction; the source never consults the filesystem
here. -/
def get_tape_path (tape_name : String) : String :=
  os_path_join TAPE_DIR (tape_name ++ ".tape")

/-- Match of the source regex `^Output \x22(?P<path>.*)\x22$` against the
character data of one line: the line must start with `Output "`, end with a
closing quote distinct from the opening one, and the greedy capture is
everything in between (`.*` matches quotes too). -/
def matchOutputChars (cs : List Char) : Option (List Char) :=
  if ("Output \"".data).isPrefixOf cs then
    let rest := cs.drop 8
    match rest.getLast? with
    | some c => if c = '\"' then some rest.dropLast else none
    | none => none
  else none

/-- Match of `OUTPUT_REGEX` against one line of a tape file. -/
def matchOutput (line : String) : Option String :=
  (matchOutputChars line.data).map String.mk

/-- Source `get_gif_path`, applied to the lines of the tape file: scan the
lines in order, return the capture of the first line matching
`OUTPUT_REGEX`; if no line matches, raise `ValueError` (modelled as
`none`). -/
def get_gif_path : List String → Option String
  | [] => none
  | line :: rest =>
    match matchOutput line with
    | some path => some path
    | none => get_gif_path rest

/-- State of the scratch-directory pool: the directories currently allocated
and not yet removed, and a counter producing fresh directory names. -/
structure RenderState where
  liveDirs : List Nat
  nextDir : Nat
deriving DecidableEq

/-- Errors a single render job can die with: `vhs` exited non-zero
(`subprocess.CalledProcessError`) or the tape lacks an `Output` directive
(`ValueError`). -/
inductive GenErr where
  | renderFailed (tape : String)
  | missingOutput (tape : String)
deriving DecidableEq

/-- Source `generate`: enter `TemporaryDirectory()` (allocate a fresh scratch
directory), run `vhs` pointed at it via `SLUMBER_DB`, leave the context
manager (remove the directory — this happens both on normal exit and when the
`run` call raises), then read the declared GIF path from the tape.  The
returned state reflects the allocation followed by the removal on either
path. -/
def generate (recorder : Nat → String → Bool) (fs : String → List String)
    (tape_path : String) (s : RenderState) : Except GenErr String × RenderState :=
  let temp_dir := s.nextDir
  let sOpen : RenderState := ⟨temp_dir :: s.liveDirs, s.nextDir + 1⟩
  let vhs : Except GenErr Unit :=
    if recorder temp_dir tape_path then .ok () else .error (.renderFailed tape_path)
  let sClosed : RenderState := ⟨sOpen.liveDirs.erase temp_dir, sOpen.nextDir⟩
  match vhs with
  | .error e => (.error e, sClosed)
  | .ok _ =>
    match get_gif_path (fs tape_path) with
    | some path => (.ok path, sClosed)
    | none => (.error (.missingOutput tape_path), sClosed)

/-- One render job per tape, every job runs to completion (`join` waits for
all of them and never re-raises).  Returns the per-job outcomes in input
order together with the final scratch-directory state. -/
def generate_all_jobs (recorder : Nat → String → Bool) (fs : String → List String) :
    List String → RenderState → List (Except GenErr String) × RenderState
  | [], s => ([], s)
  | tape :: rest, s =>
    let p := generate recorder fs tape s
    let q := generate_all_jobs recorder fs rest p.2
    (p.1 :: q.1, q.2)

/-- The shared `gifs` list collects exactly the successful results: a thread
whose `generate` raised dies before its `gifs.append` and the exception is
swallowed by the default thread excepthook. -/
def successes : List (Except GenErr String) → List String
  | [] => []
  | .ok g :: rest => g :: successes rest
  | .error _ :: rest => successes rest

/-- Opening a file in mode `"w"` truncates it: whatever was there before, the
content restarts empty. -/
def openWrite (_oldContent : String) : String := ""

/-- The f-string block written per GIF: `f"{gif}\n\n![]({gif})\n\n"`. -/
def gif_md_entry (gif : String) : String :=
  gif ++ "\n\n![](" ++ gif ++ ")\n\n"

/-- The review-document write in `generate_all`: open `GIF_MD_FILE` in mode
`"w"` and write one markdown block per GIF, iterating over `sorted(gifs)`. -/
def write_review (oldContent : String) (gifs : List String) : String :=
  (pySorted gifs).foldl (fun content g => content ++ gif_md_entry g) (openWrite oldContent)

/-- Everything `generate_all` produces: the per-job outcomes, the order of
blocks in the review document, the review document's new content, and the
final scratch-directory state.  The function itself always returns normally
(thread exceptions are printed and dropped), hence there is no error
component. -/
structure GenerateAllResult where
  jobResults : List (Except GenErr String)
  reviewOrder : List String
  fileContent : String
  finalState : RenderState

/-- Source `generate_all`: an empty tape list falls back to the discovered
tapes (`get_tapes()`, passed in as `discovered` since it enumerates the
filesystem); one thread per tape is started and joined; the shared `gifs`
list receives the successful results in completion order (modelled by the
`perm` parameter applied to the successes); finally `sorted(gifs)` is written
to the review document.  The `cargo build` step is assumed to succeed — it
precedes everything modelled here. -/
def generate_all (recorder : Nat → String → Bool) (fs : String → List String)
    (discovered : List String) (perm : List String → List String)
    (tapes : List String) (oldReview : String) (s : RenderState) : GenerateAllResult :=
  let tapes := if tapes.isEmpty then discovered else tapes
  let p := generate_all_jobs recorder fs tapes s
  let gifs := perm (successes p.1)
  ⟨p.1, pySorted gifs, write_review oldReview gifs, p.2⟩

/-- The two read-only git queries the script issues. -/
inductive GitQuery where
  | revParseHead
  | logLast (path : String)
deriving DecidableEq

/-- The version-control collaborator: the HEAD commit id as a function of a
logical clock (so the repository may advance while a batch runs) and the last
commit touching a given path (empty string when the path has no history,
matching `git log`'s empty output after `.strip()`). -/
structure GitRepo where
  headSeq : Nat → String
  logOf : String → String

/-- Observation state for git queries: a logical clock and the trace of
queries issued so far. -/
structure GitState where
  time : Nat
  trace : List GitQuery
deriving DecidableEq

/-- Issue one git query: read its value at the current instant, advance the
clock, record the query in the trace. -/
def query (repo : GitRepo) (q : GitQuery) (s : GitState) : String × GitState :=
  let v := match q with
    | .revParseHead => repo.headSeq s.time
    | .logLast p => repo.logOf p
  (v, ⟨s.time + 1, s.trace ++ [q]⟩)

/-- Source `check`: run `git log -n 1 --pretty=format:%H -- gif_path` and
compare the result with the HEAD commit id passed by the caller. -/
def check (repo : GitRepo) (gif_path latest_commit : String) (s : GitState) :
    Bool × GitState :=
  let p := query repo (.logLast gif_path) s
  (latest_commit == p.1, p.2)

/-- Errors `check_all` can raise: `ValueError` from `get_gif_path` on a tape
without an `Output` directive, or the final `Exception` listing the outdated
GIFs. -/
inductive CheckErr where
  | missingOutput (tape : String)
  | outdated (failed : List String)
deriving DecidableEq

/-- The per-tape loop of `check_all`: resolve each tape's GIF path, check it
against the HEAD id captured before the loop, and accumulate the failing GIF
paths in order.  The loop never stops at a failing verdict; it aborts only
when a tape has no `Output` directive. -/
def check_loop (fs : String → List String) (repo : GitRepo) (latest : String) :
    List String → List String → GitState → Except CheckErr (List String) × GitState
  | [], failed, s => (.ok failed, s)
  | tape :: rest, failed, s =>
    match get_gif_path (fs tape) with
    | none => (.error (.missingOutput tape), s)
    | some gif =>
      let c := check repo gif latest s
      let failed' := if c.1 then failed else failed ++ [gif]
      check_loop fs repo latest rest failed' c.2

/-- Source `check_all`: an empty tape list falls back to the discovered
tapes; `git rev-parse HEAD` is run once, before the loop; every tape is
checked against that single id; if any GIF failed, an `Exception` listing all
of them is raised (non-zero process exit). -/
def check_all (fs : String → List String) (repo : GitRepo)
    (discovered : List String) (tapes : List String) (s : GitState) :
    Except CheckErr Unit × GitState :=
  let tapes := if tapes.isEmpty then discovered else tapes
  let p := query repo .revParseHead s
  let r := check_loop fs repo p.1 tapes [] p.2
  match r.1 with
  | .error e => (.error e, r.2)
  | .ok failed =>
    if failed.isEmpty then (.ok (), r.2) else (.error (.outdated failed), r.2)

/-! Concrete fixtures used by counterexamples and witnesses. -/

/-- Initial scratch-directory state. -/
def s0 : RenderState := ⟨[], 0⟩

/-- Initial git observation state. -/
def g0 : GitState := ⟨0, []⟩

/-- A recorder that always exits 0. -/
def recOk : Nat → String → Bool := fun _ _ => true

/-- A recorder that exits 1 exactly on `tapes/post.tape`. -/
def recFailPost : Nat → String → Bool := fun _ t => !(t == "tapes/post.tape")

/-- A recorder that exits 0 only on `tapes/get.tape` (e.g. because every
other tape file does not exist, so `vhs` fails on it). -/
def recOnlyGet : Nat → String → Bool := fun _ t => t == "tapes/get.tape"

/-- A filesystem with two tapes whose declared outputs sort opposite to the
given input order. -/
def fsAB : String → List String := fun p =>
  if p == "tapes/b.tape" then ["Output \"static/b.gif\""]
  else if p == "tapes/a.tape" then ["Output \"static/a.gif\""]
  else []

/-- A filesystem with the `get.tape` / `post.tape` scenario from the spec. -/
def fsGP : String → List String := fun p =>
  if p == "tapes/get.tape" then ["Output \"static/get.gif\""]
  else if p == "tapes/post.tape" then ["Output \"static/post.gif\""]
  else []

/-- A repository where `static/get.gif` was last touched by HEAD but
`static/post.gif` was not. -/
def repoGP : GitRepo :=
  ⟨fun _ => "headcommit",
   fun p => if p == "static/get.gif" then "headcommit" else "oldcommit"⟩

/-- A repository whose HEAD advances after the first query. -/
def repoMoving : GitRepo :=
  ⟨fun t => if t == 0 then "headcommit" else "movedcommit",
   fun p => if p == "static/get.gif" then "headcommit" else ""⟩

/-- A repository in which `static/get.gif` was last touched by commit
`headcommit` and no other path has any history. -/
def repoAbsent : GitRepo :=
  ⟨fun _ => "headcommit",
   fun p => if p == "static/get.gif" then "headcommit" else ""⟩

/-- A filesystem with a tape declaring the empty output path. -/
def fsEmptyOut : String → List String := fun p =>
  if p == "tapes/empty.tape" then ["Output \"\""] else []

/-! Order properties of the string comparison, needed to show that sorting
is invariant under the nondeterministic completion order. -/

theorem char_toNat_inj {a b : Char} (h : a.toNat = b.toNat) : a = b := by
  rw [← Char.ofNat_toNat a, ← Char.ofNat_toNat b, h]

theorem lexLe_total : ∀ as bs : List Char, lexLe as bs = true ∨ lexLe bs as = true
  | [], _ => .inl rfl
  | _ :: _, [] => .inr rfl
  | a :: as, b :: bs => by
    simp only [lexLe]
    rcases Nat.lt_trichotomy a.toNat b.toNat with h | h | h
    · left; simp [Nat.ne_of_lt h, h]
    · rcases lexLe_total as bs with ih | ih <;> simp [h, ih]
    · right; simp [Nat.ne_of_lt h, h]

theorem lexLe_trans : ∀ as bs cs : List Char,
    lexLe as bs = true → lexLe bs cs = true → lexLe as cs = true
  | [], _, _, _, _ => rfl
  | _ :: _, [], _, h, _ => by simp [lexLe] at h
  | _ :: _, _ :: _, [], _, h => by simp [lexLe] at h
  | a :: as, b :: bs, c :: cs, h1, h2 => by
    simp only [lexLe] at h1 h2 ⊢
    by_cases hab : a.toNat = b.toNat
    · rw [if_pos hab] at h1
      by_cases hbc : b.toNat = c.toNat
      · rw [if_pos hbc] at h2
        rw [if_pos (hab.trans hbc)]
        exact lexLe_trans as bs cs h1 h2
      · rw [if_neg hbc] at h2
        have h2' := of_decide_eq_true h2
        have hlt : a.toNat < c.toNat := by omega
        rw [if_neg (Nat.ne_of_lt hlt)]
        exact decide_eq_true hlt
    · rw [if_neg hab] at h1
      have h1' := of_decide_eq_true h1
      by_cases hbc : b.toNat = c.toNat
      · have hlt : a.toNat < c.toNat := by omega
        rw [if_neg (Nat.ne_of_lt hlt)]
        exact decide_eq_true hlt
      · rw [if_neg hbc] at h2
        have h2' := of_decide_eq_true h2
        have hlt : a.toNat < c.toNat := by omega
        rw [if_neg (Nat.ne_of_lt hlt)]
        exact decide_eq_true hlt

theorem lexLe_antisymm : ∀ as bs : List Char,
    lexLe as bs = true → lexLe bs as = true → as = bs
  | [], [], _, _ => rfl
  | [], _ :: _, _, h => by simp [lexLe] at h
  | _ :: _, [], h, _ => by simp [lexLe] at h
  | a :: as, b :: bs, h1, h2 => by
    simp only [lexLe] at h1 h2
    by_cases hab : a.toNat = b.toNat
    · rw [if_pos hab] at h1
      rw [if_pos hab.symm] at h2
      rw [char_toNat_inj hab, lexLe_antisymm as bs h1 h2]
    · rw [if_neg hab] at h1
      rw [if_neg (fun e => hab e.symm)] at h2
      have h1' := of_decide_eq_true h1
      have h2' := of_decide_eq_true h2
      omega

theorem strLe_total (a b : String) : strLe a b = true ∨ strLe b a = true :=
  lexLe_total a.data b.data

theorem strLe_antisymm {a b : String} (h1 : strLe a b = true) (h2 : strLe b a = true) :
    a = b :=
  congrArg String.mk (lexLe_antisymm _ _ h1 h2)

/-- Sorting is a function of the multiset of inputs only: two lists that are
permutations of one another sort to the same list. -/
theorem pySorted_perm_congr {l l' : List String} (h : l.Perm l') :
    pySorted l = pySorted l' := by
  haveI : IsTotal String (fun a b : String => strLe a b = true) := ⟨strLe_total⟩
  haveI : IsTrans String (fun a b : String => strLe a b = true) :=
    ⟨fun a b c => lexLe_trans a.data b.data c.data⟩
  haveI : IsAntisymm String (fun a b : String => strLe a b = true) :=
    ⟨fun _ _ => strLe_antisymm⟩
  unfold pySorted
  exact List.eq_of_perm_of_sorted
    (((List.perm_insertionSort _ l).trans h).trans (List.perm_insertionSort _ l').symm)
    (List.sorted_insertionSort _ l) (List.sorted_insertionSort _ l')

/-! Shape of the review document. -/

theorem foldl_append_entry (f : String → String) :
    ∀ (l : List String) (acc : String),
      l.foldl (fun content g => content ++ f g) acc = acc ++ joinStrings (l.map f)
  | [], acc => by simp [joinStrings]
  | g :: rest, acc => by
    rw [List.foldl_cons, foldl_append_entry f rest (acc ++ f g), List.map_cons]
    rw [show joinStrings (f g :: List.map f rest) = f g ++ joinStrings (List.map f rest)
      from rfl]
    rw [String.append_assoc]

theorem write_review_eq_join (oldContent : String) (gifs : List String) :
    write_review oldContent gifs = joinStrings ((pySorted gifs).map gif_md_entry) := by
  unfold write_review openWrite
  rw [foldl_append_entry, String.empty_append]

theorem write_review_perm_congr (old old' : String) {gifs gifs' : List String}
    (h : gifs.Perm gifs') : write_review old gifs = write_review old' gifs' := by
  unfold write_review openWrite
  rw [pySorted_perm_congr h]

/-! Behaviour of the output-directive matcher on well-formed lines. -/

theorem matchOutput_wellformed (path : String) :
    matchOutput ("Output \"" ++ path ++ "\"") = some path := by
  have hdata : ("Output \"" ++ path ++ "\"").data
      = "Output \"".data ++ (path.data ++ ['\"']) := by
    rw [String.data_append, String.data_append, List.append_assoc]
  have hpre : (("Output \"".data).isPrefixOf
      ("Output \"".data ++ (path.data ++ ['\"']))) = true :=
    List.isPrefixOf_iff_prefix.mpr (List.prefix_append _ _)
  have hdrop : ("Output \"".data ++ (path.data ++ ['\"'])).drop 8 = path.data ++ ['\"'] := by
    rw [show (8 : Nat) = ("Output \"".data).length from rfl, List.drop_left]
  unfold matchOutput matchOutputChars
  simp only [hdata, hpre, if_true, hdrop, List.getLast?_concat, List.dropLast_concat,
    if_pos rfl]
  rfl

theorem get_gif_path_skip {line : String} (rest : List String)
    (h : matchOutput line = none) :
    get_gif_path (line :: rest) = get_gif_path rest := by
  show (match matchOutput line with
    | some path => some path
    | none => get_gif_path rest) = get_gif_path rest
  rw [h]

theorem get_gif_path_none : ∀ lines : List String,
    (∀ l ∈ lines, matchOutput l = none) → get_gif_path lines = none
  | [], _ => rfl
  | line :: rest, h => by
    rw [get_gif_path_skip rest (h line (by simp))]
    exact get_gif_path_none rest (fun l hl => h l (by simp [hl]))

theorem get_gif_path_first (pre : List String) (path : String) (post : List String)
    (h : ∀ l ∈ pre, matchOutput l = none) :
    get_gif_path (pre ++ ("Output \"" ++ path ++ "\"") :: post) = some path := by
  induction pre with
  | nil =>
    show get_gif_path (("Output \"" ++ path ++ "\"") :: post) = some path
    unfold get_gif_path
    rw [matchOutput_wellformed]
  | cons line rest ih =>
    rw [List.cons_append, get_gif_path_skip _ (h line (by simp))]
    exact ih (fun l hl => h l (by simp [hl]))

/-! Scratch-directory accounting of the render path. -/

theorem generate_finalState (recorder : Nat → String → Bool) (fs : String → List String)
    (tape : String) (s : RenderState) :
    (generate recorder fs tape s).2 = ⟨s.liveDirs, s.nextDir + 1⟩ := by
  unfold generate
  cases h : recorder s.nextDir tape
  · simp [h, List.erase_cons_head]
  · cases hg : get_gif_path (fs tape) <;> simp [h, hg, List.erase_cons_head]

theorem generate_result_of_fail (recorder : Nat → String → Bool) (fs : String → List String)
    (tape : String) (s : RenderState) (h : recorder s.nextDir tape = false) :
    (generate recorder fs tape s).1 = Except.error (GenErr.renderFailed tape) := by
  unfold generate
  simp [h]

theorem generate_all_jobs_liveDirs (recorder : Nat → String → Bool)
    (fs : String → List String) :
    ∀ (tapes : List String) (s : RenderState),
      (generate_all_jobs recorder fs tapes s).2.liveDirs = s.liveDirs
  | [], _ => rfl
  | t :: ts, s => by
    show (generate_all_jobs recorder fs ts (generate recorder fs t s).2).2.liveDirs = _
    rw [generate_all_jobs_liveDirs recorder fs ts _, generate_finalState]

theorem generate_all_jobs_length (recorder : Nat → String → Bool)
    (fs : String → List String) :
    ∀ (tapes : List String) (s : RenderState),
      (generate_all_jobs recorder fs tapes s).1.length = tapes.length
  | [], _ => rfl
  | t :: ts, s => by
    show ((generate recorder fs t s).1
        :: (generate_all_jobs recorder fs ts (generate recorder fs t s).2).1).length = _
    rw [List.length_cons, generate_all_jobs_length recorder fs ts _]
    rfl

/-- Completion order does not affect anything `generate_all` produces: any
permutation of the append order yields the same result as the identity
order. -/
theorem generate_all_perm_congr (recorder : Nat → String → Bool)
    (fs : String → List String) (discovered tapes : List String) (oldReview : String)
    (s : RenderState) (perm : List String → List String)
    (hperm : ∀ l : List String, (perm l).Perm l) :
    generate_all recorder fs discovered perm tapes oldReview s
      = generate_all recorder fs discovered id tapes oldReview s := by
  simp only [generate_all, id_eq]
  rw [pySorted_perm_congr (hperm _), write_review_perm_congr oldReview oldReview (hperm _)]

/-- Claim C1 (amended): `generate_all` hands the artifact references to the
review document in sorted lexicographic order of the GIF paths — a function
of the input set alone, independent of the order in which the concurrent
render jobs complete (modelled by an arbitrary permutation of the completion
order) — but NOT in input order. -/
theorem c1_review_order_deterministic (recorder : Nat → String → Bool)
    (fs : String → List String) (discovered tapes : List String) (oldReview : String)
    (s : RenderState) (perm : List String → List String)
    (hperm : ∀ l : List String, (perm l).Perm l) :
    generate_all recorder fs discovered perm tapes oldReview s
      = generate_all recorder fs discovered id tapes oldReview s
    ∧ (generate_all recorder fs discovered perm tapes oldReview s).reviewOrder
      = pySorted (successes (generate_all_jobs recorder fs
          (if tapes.isEmpty then discovered else tapes) s).1) := by
  refine ⟨generate_all_perm_congr recorder fs discovered tapes oldReview s perm hperm, ?_⟩
  rw [generate_all_perm_congr recorder fs discovered tapes oldReview s perm hperm]
  simp only [generate_all, id_eq]

/-- Claim C1, counterexample to the statement as written: with input order
`[b.tape, a.tape]` every job succeeds (in input order, as `jobResults`
shows), yet the returned sequence of artifact references is the sorted
`[a.gif, b.gif]`, not the input-order `[b.gif, a.gif]`. -/
theorem c1_counterexample :
    (generate_all recOk fsAB [] id ["tapes/b.tape", "tapes/a.tape"] "" s0).jobResults
      = [Except.ok "static/b.gif", Except.ok "static/a.gif"]
    ∧ (generate_all recOk fsAB [] id ["tapes/b.tape", "tapes/a.tape"] "" s0).reviewOrder
      = ["static/a.gif", "static/b.gif"]
    ∧ ["static/a.gif", "static/b.gif"] ≠ ["static/b.gif", "static/a.gif"] :=
  ⟨rfl, rfl, by decide⟩

/-- Claim C1 witness: the amended theorem applied to a reversed completion
order on a concrete batch. -/
theorem c1_witness :
    (generate_all recOk fsAB [] List.reverse ["tapes/b.tape", "tapes/a.tape"] "" s0).reviewOrder
      = ["static/a.gif", "static/b.gif"] := by
  have h := c1_review_order_deterministic recOk fsAB [] ["tapes/b.tape", "tapes/a.tape"]
    "" s0 List.reverse (fun l => l.reverse_perm)
  rw [h.2]
  rfl

/-- Claim C2: the scratch directory allocated by `generate` is removed on
every exit path — the set of live directories after the call equals the set
before it, both when the recorder exits 0 and when it exits non-zero (in
which case the error still propagates) — and a whole batch, failing or not,
leaves no scratch directory behind. -/
theorem c2_scratch_dir_released (recorder : Nat → String → Bool)
    (fs : String → List String) (tape : String) (s : RenderState) :
    (generate recorder fs tape s).2.liveDirs = s.liveDirs
    ∧ (recorder s.nextDir tape = false →
        (generate recorder fs tape s).1 = Except.error (GenErr.renderFailed tape))
    ∧ ∀ (tapes : List String) (s' : RenderState),
        (generate_all_jobs recorder fs tapes s').2.liveDirs = s'.liveDirs := by
  refine ⟨?_, ?_, fun tapes s' => generate_all_jobs_liveDirs recorder fs tapes s'⟩
  · rw [generate_finalState]
  · intro h
    exact generate_result_of_fail recorder fs tape s h

/-- Claim C2 witness: a failing render on a concrete batch still releases its
scratch directory and surfaces the render error. -/
theorem c2_witness :
    (generate recFailPost fsGP "tapes/post.tape" s0).2.liveDirs = ([] : List Nat)
    ∧ (generate recFailPost fsGP "tapes/post.tape" s0).1
      = Except.error (GenErr.renderFailed "tapes/post.tape") :=
  ⟨(c2_scratch_dir_released recFailPost fsGP "tapes/post.tape" s0).1,
   (c2_scratch_dir_released recFailPost fsGP "tapes/post.tape" s0).2.1 rfl⟩

/-- Claim C3, counterexample to the statement as written: a script with two
well-formed directive lines is NOT rejected — `get_gif_path` silently
returns the first match. -/
theorem c3_counterexample :
    matchOutput "Output \"a.gif\"" = some "a.gif"
    ∧ matchOutput "Output \"b.gif\"" = some "b.gif"
    ∧ get_gif_path ["Output \"a.gif\"", "Output \"b.gif\""] = some "a.gif" :=
  ⟨rfl, rfl, rfl⟩

/-- Claim C3 (amended): parsing is total with first-match-wins semantics —
for every script, `get_gif_path` returns the path captured from the FIRST
well-formed directive line, verbatim including special characters, and fails
(raises `ValueError`, modelled as `none`) exactly when no line matches;
later duplicate directives are ignored, not rejected. -/
theorem c3_first_match_verbatim :
    (∀ (pre : List String) (path : String) (post : List String),
        (∀ l ∈ pre, matchOutput l = none) →
        get_gif_path (pre ++ ("Output \"" ++ path ++ "\"") :: post) = some path)
    ∧ (∀ lines : List String, (∀ l ∈ lines, matchOutput l = none) →
        get_gif_path lines = none) :=
  ⟨get_gif_path_first, get_gif_path_none⟩

/-- Claim C3 witness: a path with quotes, spaces and parentheses is captured
verbatim from the first directive line of a concrete script. -/
theorem c3_witness :
    get_gif_path ["Set FontSize 14", "Output \"static/demo \"v2\" (final).gif\""]
      = some "static/demo \"v2\" (final).gif" := by
  have h := c3_first_match_verbatim.1 ["Set FontSize 14"]
    "static/demo \"v2\" (final).gif" []
    (by intro l hl; simp only [List.mem_singleton] at hl; subst hl; rfl)
  exact h

/-- Claim C4, counterexample to the statement as written: one render job
fails, yet `generate_all` completes normally — the failing job's error is
swallowed (the Python thread dies, `join` does not re-raise, the process
exits 0) and the review document is written with the remaining artifact
only. -/
theorem c4_counterexample :
    (generate_all recFailPost fsGP [] id
        ["tapes/get.tape", "tapes/post.tape"] "" s0).jobResults
      = [Except.ok "static/get.gif",
         Except.error (GenErr.renderFailed "tapes/post.tape")]
    ∧ (generate_all recFailPost fsGP [] id
        ["tapes/get.tape", "tapes/post.tape"] "" s0).reviewOrder
      = ["static/get.gif"]
    ∧ (generate_all recFailPost fsGP [] id
        ["tapes/get.tape", "tapes/post.tape"] "" s0).fileContent
      = "static/get.gif\n\n![](static/get.gif)\n\n" :=
  ⟨rfl, rfl, rfl⟩

/-- Claim C4 (amended): every sibling job runs to completion (there is one
job outcome per tape), but a failing job does not fail the batch: its error
is dropped and `generate_all` returns normally, listing only the successful
artifacts in the review document; when all jobs succeed, all artifacts are
listed. -/
theorem c4_failures_swallowed (recorder : Nat → String → Bool)
    (fs : String → List String) (discovered tapes : List String) (oldReview : String)
    (s : RenderState) :
    (generate_all recorder fs discovered id tapes oldReview s).jobResults.length
      = (if tapes.isEmpty then discovered else tapes).length
    ∧ (generate_all recorder fs discovered id tapes oldReview s).reviewOrder
      = pySorted (successes
          (generate_all recorder fs discovered id tapes oldReview s).jobResults) := by
  constructor
  · simp only [generate_all]
    exact generate_all_jobs_length recorder fs _ s
  · simp only [generate_all, id_eq]

/-- Claim C7, counterexample to the statement as written: `get_tape_path`
resolves the name `missing` — whose tape file does not exist anywhere in the
modelled filesystem — to a path without any error, and the batch then starts
rendering: the sibling tape renders fine while the missing one fails inside
its own job. No `NotFoundError` is raised before rendering. -/
theorem c7_counterexample :
    get_tape_path "missing" = "tapes/missing.tape"
    ∧ (generate_all recOnlyGet fsGP [] id
        (["get", "missing"].map get_tape_path) "" s0).jobResults
      = [Except.ok "static/get.gif",
         Except.error (GenErr.renderFailed "tapes/missing.tape")] :=
  ⟨rfl, rfl⟩

/-- Claim C7 (amended): `resolve` is the pure path construction
`os.path.join(TAPE_DIR, name + ".tape")` — for any relative name it returns
the name with the fixed extension under the tape directory; it never checks
existence and never fails, so a mistyped name surfaces only later, inside
its own render job, without stopping siblings. -/
theorem c7_resolve_is_pure_join (name : String)
    (h : strStartsWith (name ++ ".tape") "/" = false) :
    get_tape_path name = TAPE_DIR ++ name ++ ".tape" := by
  unfold get_tape_path os_path_join
  rw [h]
  rw [if_neg (by simp)]
  rw [if_pos (by decide)]
  rw [String.append_assoc]

/-- Claim C7 witness: the amended theorem evaluated on a concrete name. -/
theorem c7_witness : get_tape_path "demo" = "tapes/demo.tape" :=
  c7_resolve_is_pure_join "demo" rfl

/-- Claim C8: the review-document write fully overwrites the destination —
the new content is independent of the previous content and of the jobs'
completion order — and equals the concatenation of exactly one block per
artifact (the literal path, a blank line, the embed directive, a trailing
blank line separating it from the next block), in sorted, reproducible
order. -/
theorem c8_review_overwrite (old old' : String) (gifs gifs' : List String)
    (h : gifs.Perm gifs') :
    write_review old gifs = write_review old' gifs'
    ∧ write_review old gifs = joinStrings ((pySorted gifs).map gif_md_entry) :=
  ⟨write_review_perm_congr old old' h, write_review_eq_join old gifs⟩

/-- Claim C8 witness: stale previous content does not survive and the block
layout is exactly as specified, on a concrete artifact list. -/
theorem c8_witness :
    write_review "stale entry from a previous run" ["static/b.gif", "static/a.gif"]
      = write_review "" ["static/a.gif", "static/b.gif"]
    ∧ write_review "stale entry from a previous run" ["static/b.gif", "static/a.gif"]
      = "static/a.gif\n\n![](static/a.gif)\n\nstatic/b.gif\n\n![](static/b.gif)\n\n" := by
  have h := c8_review_overwrite "stale entry from a previous run" ""
    ["static/b.gif", "static/a.gif"] ["static/a.gif", "static/b.gif"] (by decide)
  refine ⟨h.1, ?_⟩
  rw [h.2]
  rfl

/-- Claim C10: the directive `Output ""` is well-formed — the capture is the
empty string — and the empty path flows unvalidated into staleness checking
(the git query is issued for the empty path, whose empty history makes the
verdict fail) and into the review listing. -/
theorem c10_empty_output_accepted :
    matchOutput "Output \"\"" = some ""
    ∧ get_gif_path ["Set FontSize 14", "Output \"\""] = some ""
    ∧ (check_all fsEmptyOut repoAbsent [] ["tapes/empty.tape"] g0).2.trace
      = [GitQuery.revParseHead, GitQuery.logLast ""]
    ∧ (check_all fsEmptyOut repoAbsent [] ["tapes/empty.tape"] g0).1
      = Except.error (CheckErr.outdated [""])
    ∧ write_review "" [""] = "\n\n![]()\n\n" :=
  ⟨rfl, rfl, rfl, rfl, rfl⟩

/-! Staleness checking. -/

/-- Claim C5: `check` passes exactly when the last commit touching the GIF
equals the HEAD id captured by the caller; a path with no history at all
(the query returns the empty string) always fails, since the HEAD id is
never empty. -/
theorem c5_check_verdict (repo : GitRepo) (gif_path latest_commit : String)
    (s : GitState) :
    ((check repo gif_path latest_commit s).1 = true ↔ repo.logOf gif_path = latest_commit)
    ∧ (repo.logOf gif_path = "" → latest_commit ≠ "" →
        (check repo gif_path latest_commit s).1 = false) := by
  constructor
  · show (latest_commit == repo.logOf gif_path) = true ↔ _
    rw [beq_iff_eq]
    exact eq_comm
  · intro habs hne
    show (latest_commit == repo.logOf gif_path) = false
    rw [habs]
    exact beq_eq_false_iff_ne.mpr hne

/-- Claim C5 witness: a GIF last touched by HEAD passes, a GIF with no
history fails, on a concrete repository. -/
theorem c5_witness :
    (check repoAbsent "static/get.gif" "headcommit" g0).1 = true
    ∧ (check repoAbsent "static/post.gif" "headcommit" g0).1 = false :=
  ⟨(c5_check_verdict repoAbsent "static/get.gif" "headcommit" g0).1.mpr rfl,
   (c5_check_verdict repoAbsent "static/post.gif" "headcommit" g0).2 rfl (by decide)⟩

/-- The loop of `check_all` visits every tape and accumulates exactly the
failing GIF paths, in order, after the accumulator passed in. -/
theorem check_loop_spec (fs : String → List String) (repo : GitRepo) (latest : String) :
    ∀ (tapes gifs failed : List String) (s : GitState),
      tapes.map (fun t => get_gif_path (fs t)) = gifs.map some →
      (check_loop fs repo latest tapes failed s).1
        = Except.ok (failed ++ gifs.filter (fun g => !(latest == repo.logOf g)))
  | [], gifs, failed, s, h => by
    have hg : gifs = [] := by
      cases gifs with
      | nil => rfl
      | cons g gs => simp at h
    subst hg
    simp [check_loop]
  | t :: ts, gifs, failed, s, h => by
    cases gifs with
    | nil => simp at h
    | cons g gs =>
      simp only [List.map_cons, List.cons.injEq] at h
      obtain ⟨hg, hrest⟩ := h
      simp only [check_loop, hg]
      by_cases hb : (latest == repo.logOf g) = true
      · have hc : (check repo g latest s).1 = true := hb
        simp only [hc, if_true]
        rw [check_loop_spec fs repo latest ts gs failed _ hrest]
        simp [List.filter_cons, hb]
      · have hbeq : (latest == repo.logOf g) = false := by
          cases hx : (latest == repo.logOf g)
          · rfl
          · exact absurd hx hb
        have hc : (check repo g latest s).1 = false := hbeq
        simp only [hc, Bool.false_eq_true, if_false]
        rw [check_loop_spec fs repo latest ts gs (failed ++ [g]) _ hrest]
        have hfil : (g :: gs).filter (fun x => !(latest == repo.logOf x))
            = g :: gs.filter (fun x => !(latest == repo.logOf x)) := by
          rw [List.filter_cons, hbeq]
          rfl
        rw [hfil, List.append_assoc]
        rfl

/-- Claim C6: `check_all` checks every artifact (no early stop at a failing
verdict), collects the failing artifact paths in order, succeeds exactly
when that set is empty, and otherwise raises the exception listing every
stale path (which makes the process exit non-zero). -/
theorem c6_check_all_aggregate (fs : String → List String) (repo : GitRepo)
    (discovered tapes gifs : List String) (s : GitState)
    (hne : tapes ≠ [])
    (hparse : tapes.map (fun t => get_gif_path (fs t)) = gifs.map some) :
    (check_all fs repo discovered tapes s).1
      = (if (gifs.filter (fun g => !(repo.headSeq s.time == repo.logOf g))).isEmpty
          then Except.ok ()
          else Except.error (CheckErr.outdated
            (gifs.filter (fun g => !(repo.headSeq s.time == repo.logOf g))))) := by
  have hemp : tapes.isEmpty = false := by
    cases tapes with
    | nil => exact absurd rfl hne
    | cons t ts => rfl
  have hloop := check_loop_spec fs repo (repo.headSeq s.time) tapes gifs []
    ⟨s.time + 1, s.trace ++ [GitQuery.revParseHead]⟩ hparse
  rw [List.nil_append] at hloop
  simp only [check_all, query, hemp, Bool.false_eq_true, if_false]
  rw [hloop]
  cases hf : (gifs.filter (fun g => !(repo.headSeq s.time == repo.logOf g))).isEmpty <;>
    simp [hf]

/-- Claim C6 witness: the spec scenario — `get.gif` current, `post.gif`
stale — yields the aggregate failure listing exactly the stale path. -/
theorem c6_witness :
    (check_all fsGP repoGP [] ["tapes/get.tape", "tapes/post.tape"] g0).1
      = Except.error (CheckErr.outdated ["static/post.gif"]) := by
  have h := c6_check_all_aggregate fsGP repoGP [] ["tapes/get.tape", "tapes/post.tape"]
    ["static/get.gif", "static/post.gif"] g0 (by simp) rfl
  rw [h]
  rfl

/-! Query-trace properties of `check_all`. -/

theorem check_loop_trace (fs : String → List String) (repo : GitRepo) (latest : String)
    (tapes : List String) :
    ∀ (failed : List String) (s : GitState),
      ∃ qs : List GitQuery,
        (check_loop fs repo latest tapes failed s).2.trace = s.trace ++ qs
        ∧ ∀ q ∈ qs, q ≠ GitQuery.revParseHead := by
  induction tapes with
  | nil =>
    intro failed s
    exact ⟨[], by simp [check_loop], by simp⟩
  | cons t ts ih =>
    intro failed s
    cases hg : get_gif_path (fs t) with
    | none =>
      refine ⟨[], ?_, by simp⟩
      simp [check_loop, hg]
    | some gif =>
      obtain ⟨qs, h1, h2⟩ := ih
        (if (check repo gif latest s).1 then failed else failed ++ [gif])
        (check repo gif latest s).2
      refine ⟨GitQuery.logLast gif :: qs, ?_, ?_⟩
      · simp only [check_loop, hg]
        rw [h1]
        show (s.trace ++ [GitQuery.logLast gif]) ++ qs = _
        rw [List.append_assoc]
        rfl
      · intro q hq
        rcases List.mem_cons.mp hq with rfl | hq
        · simp
        · exact h2 q hq

theorem check_loop_headSeq_irrel (fs : String → List String) (repo repo2 : GitRepo)
    (hlog : repo2.logOf = repo.logOf) (latest : String) (tapes : List String) :
    ∀ (failed : List String) (s : GitState),
      check_loop fs repo2 latest tapes failed s = check_loop fs repo latest tapes failed s := by
  induction tapes with
  | nil => intro failed s; rfl
  | cons t ts ih =>
    intro failed s
    cases hg : get_gif_path (fs t) with
    | none => simp [check_loop, hg]
    | some gif =>
      simp only [check_loop, hg, check, query, hlog]
      exact ih _ _

theorem check_all_trace_eq (fs : String → List String) (repo : GitRepo)
    (discovered tapes : List String) (s : GitState) :
    (check_all fs repo discovered tapes s).2.trace
      = (check_loop fs repo (repo.headSeq s.time)
          (if tapes.isEmpty then discovered else tapes) []
          ⟨s.time + 1, s.trace ++ [GitQuery.revParseHead]⟩).2.trace := by
  simp only [check_all, query]
  cases hr : (check_loop fs repo (repo.headSeq s.time)
      (if tapes.isEmpty then discovered else tapes) []
      ⟨s.time + 1, s.trace ++ [GitQuery.revParseHead]⟩).1 with
  | error e => simp [hr]
  | ok failed =>
    by_cases hf : failed.isEmpty <;> simp [hr, hf]

/-- Claim C9: in one `check_all` run the HEAD commit id is queried exactly
once, as the very first git query, and the result of the whole run depends
on the HEAD sequence only through its value at that initial instant — so
every verdict of the batch is taken against the same HEAD snapshot even if
the repository advances mid-run. -/
theorem c9_single_head_snapshot (fs : String → List String) (repo : GitRepo)
    (discovered tapes : List String) (s : GitState) (htrace : s.trace = []) :
    ((check_all fs repo discovered tapes s).2.trace).head? = some GitQuery.revParseHead
    ∧ ((check_all fs repo discovered tapes s).2.trace).count GitQuery.revParseHead = 1
    ∧ (∀ repo2 : GitRepo, repo2.logOf = repo.logOf →
        repo2.headSeq s.time = repo.headSeq s.time →
        (check_all fs repo2 discovered tapes s).1 = (check_all fs repo discovered tapes s).1) := by
  obtain ⟨qs, h1, h2⟩ := check_loop_trace fs repo (repo.headSeq s.time)
    (if tapes.isEmpty then discovered else tapes) []
    ⟨s.time + 1, s.trace ++ [GitQuery.revParseHead]⟩
  have htr : (check_all fs repo discovered tapes s).2.trace = GitQuery.revParseHead :: qs := by
    rw [check_all_trace_eq, h1, htrace]
    rfl
  refine ⟨by rw [htr]; rfl, ?_, ?_⟩
  · rw [htr, List.count_cons_self, List.count_eq_zero.mpr ?_]
    intro hmem
    exact h2 _ hmem rfl
  · intro repo2 hlog hhead
    simp only [check_all, query, hlog, hhead,
      check_loop_headSeq_irrel fs repo repo2 hlog]

/-- Claim C9 witness: on a repository whose HEAD moves right after the first
query, the trace still contains a single initial HEAD query and the verdicts
coincide with those against the frozen initial HEAD. -/
theorem c9_witness :
    ((check_all fsGP repoMoving [] ["tapes/get.tape", "tapes/post.tape"] g0).2.trace).head?
      = some GitQuery.revParseHead
    ∧ ((check_all fsGP repoMoving [] ["tapes/get.tape", "tapes/post.tape"] g0).2.trace).count
        GitQuery.revParseHead = 1
    ∧ (check_all fsGP repoAbsent [] ["tapes/get.tape", "tapes/post.tape"] g0).1
      = (check_all fsGP repoMoving [] ["tapes/get.tape", "tapes/post.tape"] g0).1 := by
  have h := c9_single_head_snapshot fsGP repoMoving []
    ["tapes/get.tape", "tapes/post.tape"] g0 rfl
  exact ⟨h.1, h.2.1, h.2.2 repoAbsent rfl rfl⟩

end Gifs
